import Mathlib

/-!
Verification of the Panda-Cli registration contract.

The Registration Validator is the zod schema `serviceSchema` together with the
payload construction in `onSubmit` (src/components/service-registration-form.tsx);
the Registration Acceptor is the `POST` handler (src/app/api/register/route.ts).
Both are embedded below as executable Lean functions; nondeterministic inputs
(the generated UUID token, the generated record id, the current time) are passed
in explicitly as parameters, following the spec's guidance to treat fresh-id
generation as an injected capability.
-/

/-! ## JavaScript string helpers (library semantics used by the source) -/

/-- Modelled from the spec: JavaScript whitespace for `String.prototype.trim`
(the trim implementation is ECMAScript library code, not part of src). -/
def isJsWhitespace (c : Char) : Bool :=
  c = ' ' || c = '\t' || c = '\n' || c = '\r' || c = '\x0B' || c = '\x0C'

/-- Drop JS whitespace from both ends of a character list. -/
def trimChars (cs : List Char) : List Char :=
  ((cs.dropWhile isJsWhitespace).reverse.dropWhile isJsWhitespace).reverse

/-- Modelled from the spec: JavaScript `String.prototype.trim` (library code,
not part of src), used by the schema for the domain and customType checks. -/
def jsTrim (s : String) : String :=
  String.mk (trimChars s.data)

/-- Modelled from the spec: a string "must parse as a well-formed URL
(scheme + host + optional port)". The URL parser itself is zod/WHATWG library
code not in the repository; modelled as a nonempty alphabetic scheme followed
by "://" and a nonempty remainder. -/
def afterScheme : List Char → Option (List Char)
  | ':' :: '/' :: '/' :: rest => some rest
  | c :: rest => if c.isAlpha then afterScheme rest else none
  | [] => none

/-- Modelled from the spec: URL well-formedness test for `z.string().url()`. -/
def isValidUrl (s : String) : Bool :=
  match s.data with
  | [] => false
  | c :: rest =>
    c.isAlpha &&
      (match afterScheme rest with
       | some host => !host.isEmpty
       | none => false)

/-! ## The domain regular expression

The schema tests the optional domain against
`^[a-zA-Z0-9-]+(?:\.[a-zA-Z0-9-]+)*\.(panda|pinou|pika|ninar|nation)$`.
A string matches exactly when splitting it on the dots yields at least two
parts whose last part is one of the five suffixes and whose earlier parts are
nonempty words of alphanumerics and hyphens. -/

/-- Character class `[a-zA-Z0-9-]` of the domain regex. -/
def isLabelChar (c : Char) : Bool :=
  c.isAlphanum || c = '-'

/-- A domain label: nonempty, all characters in `[a-zA-Z0-9-]`. -/
def okLabel (p : List Char) : Bool :=
  !p.isEmpty && p.all isLabelChar

/-- The five whitelisted domain suffixes of the regex. -/
def isPandaSuffix (p : List Char) : Bool :=
  p == "panda".data || p == "pinou".data || p == "pika".data ||
    p == "ninar".data || p == "nation".data

/-- Split a character list on the dot separator, keeping empty pieces. -/
def splitOnDot : List Char → List (List Char)
  | [] => [[]]
  | c :: rest =>
    if c = '.' then [] :: splitOnDot rest
    else (c :: (splitOnDot rest).headI) :: (splitOnDot rest).tail

/-- Join parts with dot separators (left inverse of `splitOnDot` on dot-free
parts); used to state what a string of the shape `label(.label)*.suffix` is. -/
def joinDots : List (List Char) → List Char
  | [] => []
  | [p] => p
  | p :: ps => p ++ '.' :: joinDots ps

/-- The dotted parts match the regex: one or more labels then a suffix. -/
def partsMatch (ps : List (List Char)) : Bool :=
  match ps.getLast? with
  | none => false
  | some suf => !ps.dropLast.isEmpty && ps.dropLast.all okLabel && isPandaSuffix suf

/-- The full-string regex test used by the schema's domain refinement. -/
def domainRegexTest (s : String) : Bool :=
  partsMatch (splitOnDot s.data)

/-! ## The Registration Validator (serviceSchema and onSubmit) -/

/-- Raw form values parsed by `serviceSchema`; an absent select value or an
absent optional string is `none`. -/
structure ServiceFormValues where
  name : String
  description : String
  local_url : String
  domain : Option String
  type : Option String
  customType : Option String
  publicUrl : String
deriving DecidableEq

/-- Form fields a validation issue can point at. -/
inductive FieldTag where
  | name
  | description
  | local_url
  | domain
  | type
  | customType
  | publicUrl
deriving DecidableEq

/-- One validation issue: the field it cites and its human-readable message. -/
structure Issue where
  path : FieldTag
  message : String
deriving DecidableEq

/-- Issues of `z.string().min(3, ...)` on the name field. -/
def nameIssues (s : String) : List Issue :=
  if s.length < 3 then
    [⟨FieldTag.name, "Service name must be at least 3 characters long."⟩]
  else []

/-- Issues of `z.string().min(10, ...).max(200, ...)` on the description. -/
def descriptionIssues (s : String) : List Issue :=
  if s.length < 10 then
    [⟨FieldTag.description, "Description must be at least 10 characters long."⟩]
  else if 200 < s.length then
    [⟨FieldTag.description, "Description must be at most 200 characters."⟩]
  else []

/-- Issues of `z.string().url(...)` on the local_url field. -/
def localUrlIssues (s : String) : List Issue :=
  if isValidUrl s then []
  else [⟨FieldTag.local_url,
    "Please enter a valid local URL (e.g., http://localhost:3000 or http://127.0.0.1:8080)."⟩]

/-- The domain refinement: absent, empty or whitespace-only passes (the field
is optional); anything else must match the regex. -/
def domainRefineOk : Option String → Bool
  | none => true
  | some v => if v = "" ∨ jsTrim v = "" then true else domainRegexTest v

/-- Issues of the `.refine` on the optional domain field. -/
def domainIssues (v : Option String) : List Issue :=
  if domainRefineOk v then []
  else [⟨FieldTag.domain,
    "Invalid domain. Must be like 'myservice.panda' or 'app.myservice.pinou'. Allowed suffixes: .panda, .pinou, .pika, .ninar, .nation. Use alphanumeric characters and hyphens for name parts."⟩]

/-- Membership test of `z.enum(['website', 'api', 'game', 'other'])`. -/
def isServiceTypeEnum (s : String) : Bool :=
  s == "website" || s == "api" || s == "game" || s == "other"

/-- Whether the type field parses: present and one of the four enum values. -/
def typeOk : Option String → Bool
  | none => false
  | some s => isServiceTypeEnum s

/-- Issues of the enum check on the type field (required, fixed value set).
An enum failure is an aborting failure in zod, so the object-level
`superRefine` does not run when this list is nonempty. -/
def typeIssues : Option String → List Issue
  | none => [⟨FieldTag.type, "Please select a service type."⟩]
  | some s =>
    if isServiceTypeEnum s then []
    else [⟨FieldTag.type, "Invalid enum value."⟩]

/-- Issues of `z.string().url(...)` on the publicUrl field. -/
def publicUrlIssues (s : String) : List Issue :=
  if isValidUrl s then []
  else [⟨FieldTag.publicUrl,
    "Please enter a valid public URL (e.g., from ngrok, playit.gg)."⟩]

/-- The condition of the `superRefine`: customType is missing, empty, or
shorter than 2 after trimming. -/
def customTypeTooShort : Option String → Bool
  | none => true
  | some c => c == "" || decide ((jsTrim c).length < 2)

/-- Issues added by `serviceSchema.superRefine`: a customType issue exactly
when the selected type is the escape value and customType is too short. -/
def superRefineIssues (d : ServiceFormValues) : List Issue :=
  if d.type = some "other" ∧ customTypeTooShort d.customType = true then
    [⟨FieldTag.customType,
      "Custom type must be at least 2 characters long when \"Other\" is selected."⟩]
  else []

/-- All issues reported by one parse of `serviceSchema`: every field check runs
independently and its issues are collected; the object-level `superRefine` runs
only when the enum field parsed (a zod enum failure aborts the object parse). -/
def serviceSchemaIssues (d : ServiceFormValues) : List Issue :=
  nameIssues d.name ++ descriptionIssues d.description ++
    localUrlIssues d.local_url ++ domainIssues d.domain ++
    typeIssues d.type ++ publicUrlIssues d.publicUrl ++
    (if typeOk d.type then superRefineIssues d else [])

/-- The zod `.transform` on domain and the `data.domain || undefined` step of
`onSubmit`: an empty string becomes absent, everything else passes through. -/
def emptyToUndefined : Option String → Option String
  | some "" => none
  | v => v

/-- The `finalServiceType` computation of `onSubmit`: the raw customType value
when the selected type is the escape value, the selected type otherwise. -/
def finalServiceType (d : ServiceFormValues) : String :=
  if d.type = some "other" then d.customType.getD "" else d.type.getD ""

/-- The wire payload sent to the Acceptor. -/
structure ServiceRegistrationApiPayload where
  name : String
  description : String
  local_url : String
  public_url : String
  domain : Option String
  type : String
  token : String
deriving DecidableEq

/-- The `apiPayload` object built by `onSubmit` from validated data and the
freshly generated token. -/
def apiPayload (d : ServiceFormValues) (token : String) : ServiceRegistrationApiPayload :=
  { name := d.name
    description := d.description
    local_url := d.local_url
    public_url := d.publicUrl
    domain := emptyToUndefined (emptyToUndefined d.domain)
    type := finalServiceType d
    token := token }

/-- The Registration Validator contract: the schema parse followed by the
payload construction of `onSubmit`, with the generated token passed in. -/
def validate (d : ServiceFormValues) (token : String) :
    Except (List Issue) ServiceRegistrationApiPayload :=
  match serviceSchemaIssues d with
  | [] => Except.ok (apiPayload d token)
  | e :: es => Except.error (e :: es)

/-! ## The Registration Acceptor (the POST route handler) -/

/-- The JSON body as the route reads it: any field may be absent. -/
structure ApiBody where
  name : Option String
  description : Option String
  local_url : Option String
  public_url : Option String
  domain : Option String
  type : Option String
  token : Option String
deriving DecidableEq

/-- JavaScript falsiness of an optional string field: absent or empty. -/
def falsyStr : Option String → Bool
  | none => true
  | some s => s == ""

/-- The record the route constructs and returns on success. -/
structure RegisteredService where
  id : String
  name : String
  description : Option String
  local_url : String
  public_url : String
  domain : Option String
  type : String
  token : String
  createdAt : String
deriving DecidableEq

/-- The three response shapes of the route: 201 with the record, 400 with a
message, 500 with a message and an error string. -/
inductive ApiResponse where
  | json201 (record : RegisteredService)
  | json400 (message : String)
  | json500 (message : String) (error : String)
deriving DecidableEq

/-- The 400 message of the route, naming the required fields. -/
def missingFieldsMessage : String :=
  "Missing required fields (name, local_url, type, public_url, token)."

/-- The `POST` handler of src/app/api/register/route.ts. The body is `none`
when `request.json()` throws (unparseable JSON, caught as a SyntaxError);
the fresh record id from `crypto.randomUUID()` and the current time from
`new Date().toISOString()` are passed in as parameters. -/
def POST : Option ApiBody → String → String → ApiResponse
  | none, _, _ =>
    ApiResponse.json500 "Failed to register service." "Invalid JSON payload."
  | some b, freshId, now =>
    if falsyStr b.name || falsyStr b.local_url || falsyStr b.type ||
        falsyStr b.public_url || falsyStr b.token then
      ApiResponse.json400 missingFieldsMessage
    else
      ApiResponse.json201
        { id := freshId
          name := b.name.getD ""
          description := b.description
          local_url := b.local_url.getD ""
          public_url := b.public_url.getD ""
          domain := b.domain
          type := b.type.getD ""
          token := b.token.getD ""
          createdAt := now }

/-! ## Concrete fixtures used by witnesses and counterexamples -/

/-- A fully valid form input (end-to-end scenario A of the spec). -/
def goodBase : ServiceFormValues :=
  { name := "My App"
    description := "A ten-plus character description."
    local_url := "http://localhost:3000"
    domain := none
    type := some "website"
    customType := some ""
    publicUrl := "https://abc123.ngrok.io" }

/-- Valid input selecting the escape type with a padded custom type. -/
def cexTrim : ServiceFormValues :=
  { goodBase with type := some "other", customType := some " db " }

/-- Valid input whose custom type is the literal escape value itself. -/
def cexOtherLiteral : ServiceFormValues :=
  { goodBase with type := some "other", customType := some "other" }

/-- Valid input selecting the escape type with a good custom type. -/
def dOtherGood : ServiceFormValues :=
  { goodBase with type := some "other", customType := some "db" }

/-- Input selecting the escape type but leaving the custom type empty. -/
def dOtherEmpty : ServiceFormValues :=
  { goodBase with type := some "other", customType := some "" }

/-- Valid input with a whitelisted domain. -/
def dDomainGood : ServiceFormValues :=
  { goodBase with domain := some "myapp.panda" }

/-- Input whose domain carries a non-whitelisted suffix. -/
def dDomainBad : ServiceFormValues :=
  { goodBase with domain := some "myapp.com" }

/-- Input whose domain is a single space (whitespace-only, non-empty). -/
def dWhitespaceDomain : ServiceFormValues :=
  { goodBase with domain := some " " }

/-- Input whose domain is the empty string. -/
def dEmptyDomain : ServiceFormValues :=
  { goodBase with domain := some "" }

/-- Input whose name is shorter than three characters. -/
def dShortName : ServiceFormValues :=
  { goodBase with name := "ab" }

/-- A complete wire body as the route receives it. -/
def regBody : ApiBody :=
  { name := some "My App"
    description := some "A ten-plus character description."
    local_url := some "http://localhost:3000"
    public_url := some "https://abc123.ngrok.io"
    domain := some "myapp.panda"
    type := some "website"
    token := some "tok-1" }

/-- The record the route builds for `regBody` with id "id-a". -/
def regRecA : RegisteredService :=
  { id := "id-a"
    name := "My App"
    description := some "A ten-plus character description."
    local_url := "http://localhost:3000"
    public_url := "https://abc123.ngrok.io"
    domain := some "myapp.panda"
    type := "website"
    token := "tok-1"
    createdAt := "2026-01-01T00:00:00Z" }

/-- The record the route builds for `regBody` with id "id-b". -/
def regRecB : RegisteredService :=
  { regRecA with id := "id-b", createdAt := "2026-01-02T00:00:00Z" }

/-- A wire body lacking the token field (end-to-end scenario D). -/
def missingTokenBody : ApiBody :=
  { regBody with token := none }

/-- A wire body that violates every Validator-level rule the Acceptor does not
re-check: no description, non-whitelisted domain, literal escape type, and
strings that are not URLs. -/
def badBody : ApiBody :=
  { name := some "x"
    description := none
    local_url := some "u"
    public_url := some "v"
    domain := some "x.com"
    type := some "other"
    token := some "t" }

/-! ## Helper lemmas about the split/join machinery -/

lemma splitOnDot_cons_dot (rest : List Char) :
    splitOnDot ('.' :: rest) = [] :: splitOnDot rest := by
  simp [splitOnDot]

lemma splitOnDot_cons_ne (c : Char) (rest : List Char) (hc : ¬(c = '.')) :
    splitOnDot (c :: rest) =
      (c :: (splitOnDot rest).headI) :: (splitOnDot rest).tail := by
  simp [splitOnDot, hc]

lemma splitOnDot_ne_nil (cs : List Char) : splitOnDot cs ≠ [] := by
  cases cs with
  | nil => simp [splitOnDot]
  | cons c rest =>
    by_cases hc : c = '.'
    · subst hc
      rw [splitOnDot_cons_dot]
      simp
    · rw [splitOnDot_cons_ne c rest hc]
      simp

lemma splitOnDot_no_dot (cs : List Char) (h : '.' ∉ cs) : splitOnDot cs = [cs] := by
  induction cs with
  | nil => rfl
  | cons c rest ih =>
    have hc : ¬(c = '.') := fun hc => h (hc ▸ List.mem_cons_self c rest)
    have hr : '.' ∉ rest := fun hm => h (List.mem_cons_of_mem _ hm)
    simp [splitOnDot, hc, ih hr]

lemma splitOnDot_append_dot (p : List Char) (hp : '.' ∉ p) (t : List Char) :
    splitOnDot (p ++ '.' :: t) = p :: splitOnDot t := by
  induction p with
  | nil => simp [splitOnDot]
  | cons c p' ih =>
    have hc : ¬(c = '.') := fun hc => hp (hc ▸ List.mem_cons_self c p')
    have hp' : '.' ∉ p' := fun hm => hp (List.mem_cons_of_mem _ hm)
    simp [splitOnDot, hc, ih hp']

lemma splitOnDot_joinDots (parts : List (List Char)) (hne : parts ≠ [])
    (hdot : ∀ p ∈ parts, '.' ∉ p) : splitOnDot (joinDots parts) = parts := by
  induction parts with
  | nil => exact absurd rfl hne
  | cons p rest ih =>
    cases rest with
    | nil => exact splitOnDot_no_dot p (hdot p (List.mem_cons_self p []))
    | cons q rest' =>
      have hj : joinDots (p :: q :: rest') = p ++ '.' :: joinDots (q :: rest') := rfl
      rw [hj, splitOnDot_append_dot p (hdot p (List.mem_cons_self p _)) _,
        ih (by simp) (fun x hx => hdot x (List.mem_cons_of_mem _ hx))]

lemma two_le_splitOnDot_length (cs : List Char) (h : '.' ∈ cs) :
    2 ≤ (splitOnDot cs).length := by
  induction cs with
  | nil => cases h
  | cons c rest ih =>
    by_cases hc : c = '.'
    · have := splitOnDot_ne_nil rest
      have hlen : 0 < (splitOnDot rest).length := List.length_pos.mpr this
      subst hc
      rw [splitOnDot_cons_dot, List.length_cons]
      omega
    · have hr : '.' ∈ rest := by
        rcases List.mem_cons.mp h with h' | h'
        · exact absurd h'.symm hc
        · exact h'
      have hlen := ih hr
      have htail : (splitOnDot rest).tail.length = (splitOnDot rest).length - 1 :=
        List.length_tail _
      rw [splitOnDot_cons_ne c rest hc, List.length_cons]
      omega

lemma getLast?_cons_ne_nil {α : Type} (a : α) (l : List α) (h : l ≠ []) :
    (a :: l).getLast? = l.getLast? := by
  cases l with
  | nil => exact absurd rfl h
  | cons b t => exact List.getLast?_cons_cons

lemma getLast?_splitOnDot_suffix (xs suf : List Char) (hs : '.' ∉ suf) :
    (splitOnDot (xs ++ '.' :: suf)).getLast? = some suf := by
  induction xs with
  | nil =>
    rw [List.nil_append, splitOnDot_cons_dot, splitOnDot_no_dot suf hs]
    rfl
  | cons c xs' ih =>
    have hne := splitOnDot_ne_nil (xs' ++ '.' :: suf)
    have hlen : 2 ≤ (splitOnDot (xs' ++ '.' :: suf)).length :=
      two_le_splitOnDot_length _ (by simp)
    by_cases hc : c = '.'
    · subst hc
      rw [List.cons_append, splitOnDot_cons_dot, getLast?_cons_ne_nil _ _ hne]
      exact ih
    · rw [List.cons_append, splitOnDot_cons_ne c _ hc]
      rcases hr : splitOnDot (xs' ++ '.' :: suf) with _ | ⟨h0, t⟩
      · exact absurd hr hne
      · rw [hr] at ih hlen
        have ht : t ≠ [] := by
          intro h
          rw [h] at hlen
          simp at hlen
        rw [List.tail_cons, List.headI_cons, getLast?_cons_ne_nil _ _ ht]
        rw [getLast?_cons_ne_nil _ _ ht] at ih
        exact ih

lemma partsMatch_concat (labels : List (List Char)) (suf : List Char)
    (hne : labels ≠ []) (hall : ∀ l ∈ labels, okLabel l = true)
    (hsuf : isPandaSuffix suf = true) : partsMatch (labels ++ [suf]) = true := by
  unfold partsMatch
  rw [List.getLast?_concat, List.dropLast_concat]
  simp [hsuf, List.all_eq_true, hne]
  exact hall

lemma partsMatch_eq_false (ps : List (List Char)) (suf : List Char)
    (h : ps.getLast? = some suf) (hsuf : isPandaSuffix suf = false) :
    partsMatch ps = false := by
  unfold partsMatch
  rw [h]
  simp [hsuf]

lemma okLabel_no_dot {l : List Char} (h : okLabel l = true) : '.' ∉ l := by
  intro hm
  simp only [okLabel, Bool.and_eq_true, List.all_eq_true] at h
  have := h.2 '.' hm
  simp [isLabelChar] at this

lemma isPandaSuffix_no_dot {suf : List Char} (h : isPandaSuffix suf = true) :
    '.' ∉ suf := by
  simp only [isPandaSuffix, Bool.or_eq_true, beq_iff_eq] at h
  rcases h with (((h | h) | h) | h) | h <;> subst h <;> decide

/-! ## Helper lemmas about trimming and issue membership -/

lemma mem_dropWhile_of_neg {α : Type} {p : α → Bool} {c : α} {l : List α}
    (hm : c ∈ l) (hc : p c = false) : c ∈ l.dropWhile p := by
  induction l with
  | nil => cases hm
  | cons x xs ih =>
    by_cases hx : p x = true
    · rw [List.dropWhile_cons, if_pos hx]
      rcases List.mem_cons.mp hm with h' | h'
      · subst h'
        rw [hc] at hx
        cases hx
      · exact ih h'
    · rw [List.dropWhile_cons, if_neg hx]
      exact hm

lemma trimChars_ne_nil {c : Char} {cs : List Char} (hm : c ∈ cs)
    (hc : isJsWhitespace c = false) : trimChars cs ≠ [] := by
  unfold trimChars
  intro h
  have h1 : c ∈ cs.dropWhile isJsWhitespace := mem_dropWhile_of_neg hm hc
  have h2 : c ∈ (cs.dropWhile isJsWhitespace).reverse := List.mem_reverse.mpr h1
  have h3 : c ∈ (cs.dropWhile isJsWhitespace).reverse.dropWhile isJsWhitespace :=
    mem_dropWhile_of_neg h2 hc
  have h4 : c ∈ ((cs.dropWhile isJsWhitespace).reverse.dropWhile isJsWhitespace).reverse :=
    List.mem_reverse.mpr h3
  rw [h] at h4
  cases h4

lemma jsTrim_eq_empty_iff (v : String) : jsTrim v = "" ↔ trimChars v.data = [] := by
  constructor
  · intro h
    exact congrArg String.data h
  · intro h
    unfold jsTrim
    rw [h]

lemma mem_path_nameIssues (t : FieldTag) (s : String) :
    t ∈ (nameIssues s).map Issue.path ↔ s.length < 3 ∧ t = FieldTag.name := by
  unfold nameIssues
  split <;> simp_all

lemma mem_path_descriptionIssues (t : FieldTag) (s : String) :
    t ∈ (descriptionIssues s).map Issue.path ↔
      (s.length < 10 ∨ 200 < s.length) ∧ t = FieldTag.description := by
  unfold descriptionIssues
  split
  · simp_all
  · split <;> simp_all

lemma mem_path_localUrlIssues (t : FieldTag) (s : String) :
    t ∈ (localUrlIssues s).map Issue.path ↔
      isValidUrl s = false ∧ t = FieldTag.local_url := by
  unfold localUrlIssues
  split <;> simp_all

lemma mem_path_domainIssues (t : FieldTag) (v : Option String) :
    t ∈ (domainIssues v).map Issue.path ↔
      domainRefineOk v = false ∧ t = FieldTag.domain := by
  unfold domainIssues
  split <;> simp_all

lemma mem_path_typeIssues (t : FieldTag) (o : Option String) :
    t ∈ (typeIssues o).map Issue.path ↔
      typeOk o = false ∧ t = FieldTag.type := by
  cases o with
  | none => simp [typeIssues, typeOk]
  | some s =>
    simp only [typeIssues, typeOk]
    split
    · simp_all
    · rename_i hbad
      have hb : isServiceTypeEnum s = false := by
        revert hbad
        cases isServiceTypeEnum s <;> simp
      simp [hb]

lemma mem_path_publicUrlIssues (t : FieldTag) (s : String) :
    t ∈ (publicUrlIssues s).map Issue.path ↔
      isValidUrl s = false ∧ t = FieldTag.publicUrl := by
  unfold publicUrlIssues
  split <;> simp_all

lemma mem_path_superRefineIssues (t : FieldTag) (d : ServiceFormValues) :
    t ∈ (superRefineIssues d).map Issue.path ↔
      d.type = some "other" ∧ customTypeTooShort d.customType = true ∧
        t = FieldTag.customType := by
  unfold superRefineIssues
  split <;> simp_all

lemma mem_path_schemaIssues (d : ServiceFormValues) (t : FieldTag) :
    t ∈ (serviceSchemaIssues d).map Issue.path ↔
      (d.name.length < 3 ∧ t = FieldTag.name) ∨
      ((d.description.length < 10 ∨ 200 < d.description.length) ∧
        t = FieldTag.description) ∨
      (isValidUrl d.local_url = false ∧ t = FieldTag.local_url) ∨
      (domainRefineOk d.domain = false ∧ t = FieldTag.domain) ∨
      (typeOk d.type = false ∧ t = FieldTag.type) ∨
      (isValidUrl d.publicUrl = false ∧ t = FieldTag.publicUrl) ∨
      (typeOk d.type = true ∧ d.type = some "other" ∧
        customTypeTooShort d.customType = true ∧ t = FieldTag.customType) := by
  unfold serviceSchemaIssues
  simp only [List.map_append, List.mem_append]
  rw [mem_path_nameIssues, mem_path_descriptionIssues, mem_path_localUrlIssues,
    mem_path_domainIssues, mem_path_typeIssues, mem_path_publicUrlIssues]
  split
  · rename_i hok
    rw [mem_path_superRefineIssues]
    simp only [hok, true_and]
    itauto
  · rename_i hok
    have hok' : typeOk d.type = false := by
      revert hok
      cases typeOk d.type <;> simp
    simp only [hok', List.map_nil, List.not_mem_nil, or_false, true_and]
    simp only [show (false = true) = False from by simp, false_and, or_false]
    itauto

lemma validate_eq_error (d : ServiceFormValues) (tok : String)
    (h : serviceSchemaIssues d ≠ []) :
    validate d tok = Except.error (serviceSchemaIssues d) := by
  unfold validate
  cases hs : serviceSchemaIssues d with
  | nil => exact absurd hs h
  | cons e es => rfl

lemma validate_eq_ok_iff (d : ServiceFormValues) (tok : String)
    (p : ServiceRegistrationApiPayload) :
    validate d tok = Except.ok p ↔
      serviceSchemaIssues d = [] ∧ p = apiPayload d tok := by
  unfold validate
  cases hs : serviceSchemaIssues d with
  | nil => simp [eq_comm]
  | cons e es => simp

lemma domainRefineOk_some (v : String) :
    domainRefineOk (some v) =
      if v = "" ∨ jsTrim v = "" then true else domainRegexTest v := rfl

lemma domain_not_mem_of_ok (d : ServiceFormValues)
    (h : domainRefineOk d.domain = true) :
    FieldTag.domain ∉ (serviceSchemaIssues d).map Issue.path := by
  intro hmem
  rw [mem_path_schemaIssues] at hmem
  simp [h] at hmem

lemma emptyToUndefined_some_ne (v : String) (hv : v ≠ "") :
    emptyToUndefined (some v) = some v := by
  unfold emptyToUndefined
  split
  · rename_i heq
    cases heq
    exact absurd rfl hv
  · rfl

/-! ## Claim theorems -/

/-- Claim C2: a payload submitted to the Acceptor is rejected with the 400
response naming the required fields if and only if at least one of name,
local_url, type, public_url, token is absent or empty; otherwise acceptance
proceeds with a 201 response. -/
theorem acceptor_missing_fields_iff (b : ApiBody) (i now : String) :
    (POST (some b) i now = ApiResponse.json400 missingFieldsMessage ↔
      (falsyStr b.name || falsyStr b.local_url || falsyStr b.type ||
        falsyStr b.public_url || falsyStr b.token) = true) ∧
    ((falsyStr b.name || falsyStr b.local_url || falsyStr b.type ||
        falsyStr b.public_url || falsyStr b.token) = false →
      ∃ r, POST (some b) i now = ApiResponse.json201 r) := by
  simp only [POST]
  cases hcond : (falsyStr b.name || falsyStr b.local_url || falsyStr b.type ||
      falsyStr b.public_url || falsyStr b.token) with
  | true => simp
  | false =>
    constructor
    · simp
    · intro h
      exact ⟨{ id := i, name := b.name.getD "", description := b.description,
               local_url := b.local_url.getD "", public_url := b.public_url.getD "",
               domain := b.domain, type := b.type.getD "", token := b.token.getD "",
               createdAt := now }, by simp⟩

/-- Witness for C2: the Acceptor called directly with a payload missing the
token is rejected with the 400 message (end-to-end scenario D). -/
theorem acceptor_missing_fields_iff_witness :
    POST (some missingTokenBody) "id0" "t0" = ApiResponse.json400 missingFieldsMessage :=
  (acceptor_missing_fields_iff missingTokenBody "id0" "t0").1.mpr (by decide)

/-- Claim C7: across accept calls supplied with distinct freshly generated
ids, the returned records carry distinct ids; each record's id is exactly the
injected fresh id (hence independent of the payload's token, which is copied
into the separate token field) and its createdAt is the acceptance-time stamp. -/
theorem accept_fresh_id_and_timestamp (b1 b2 : ApiBody) (i1 i2 now1 now2 : String)
    (hfresh : i1 ≠ i2) (r1 r2 : RegisteredService)
    (h1 : POST (some b1) i1 now1 = ApiResponse.json201 r1)
    (h2 : POST (some b2) i2 now2 = ApiResponse.json201 r2) :
    r1.id ≠ r2.id ∧ r1.id = i1 ∧ r2.id = i2 ∧
    r1.createdAt = now1 ∧ r2.createdAt = now2 ∧
    r1.token = b1.token.getD "" := by
  have e1 : r1.id = i1 ∧ r1.createdAt = now1 ∧ r1.token = b1.token.getD "" := by
    simp only [POST] at h1
    split at h1
    · cases h1
    · injection h1 with h'
      rw [← h']
      exact ⟨rfl, rfl, rfl⟩
  have e2 : r2.id = i2 ∧ r2.createdAt = now2 := by
    simp only [POST] at h2
    split at h2
    · cases h2
    · injection h2 with h'
      rw [← h']
      exact ⟨rfl, rfl⟩
  refine ⟨?_, e1.1, e2.1, e1.2.1, e2.2, e1.2.2⟩
  rw [e1.1, e2.1]
  exact hfresh

/-- Witness for C7: two concrete accept calls with distinct fresh ids yield
records with distinct ids and the injected timestamps. -/
theorem accept_fresh_id_and_timestamp_witness :
    regRecA.id ≠ regRecB.id ∧ regRecA.id = "id-a" ∧ regRecB.id = "id-b" ∧
    regRecA.createdAt = "2026-01-01T00:00:00Z" ∧
    regRecB.createdAt = "2026-01-02T00:00:00Z" ∧
    regRecA.token = (regBody.token).getD "" :=
  accept_fresh_id_and_timestamp regBody regBody "id-a" "id-b"
    "2026-01-01T00:00:00Z" "2026-01-02T00:00:00Z" (by decide)
    regRecA regRecB (by decide) (by decide)

/-- Claim C9: an unparseable JSON body yields the 500 response with a message
and a dedicated malformed-input error text, distinct from the 400
missing-fields message (which carries a message only). -/
theorem malformed_json_distinct_error (i now : String) :
    POST none i now =
      ApiResponse.json500 "Failed to register service." "Invalid JSON payload." ∧
    "Invalid JSON payload." ≠ missingFieldsMessage ∧
    "Failed to register service." ≠ missingFieldsMessage :=
  ⟨rfl, by decide, by decide⟩

/-- Claim C10: whenever the five required fields are present and non-empty the
Acceptor answers 201 and echoes every payload field verbatim, adding only the
fresh id and the timestamp; none of the Validator-level rules are enforced
(description may be absent, domain arbitrary, type may be the literal escape
value, URLs unchecked). -/
theorem acceptor_enforces_no_validator_rules (b : ApiBody)
    (i now n lu pu ty tok : String)
    (hn : b.name = some n) (hn2 : n ≠ "")
    (hl : b.local_url = some lu) (hl2 : lu ≠ "")
    (hp : b.public_url = some pu) (hp2 : pu ≠ "")
    (ht : b.type = some ty) (ht2 : ty ≠ "")
    (hk : b.token = some tok) (hk2 : tok ≠ "") :
    POST (some b) i now = ApiResponse.json201
      { id := i
        name := n
        description := b.description
        local_url := lu
        public_url := pu
        domain := b.domain
        type := ty
        token := tok
        createdAt := now } := by
  simp only [POST]
  rw [hn, hl, hp, ht, hk]
  rw [if_neg (by simp [falsyStr, hn2, hl2, hp2, ht2, hk2])]
  rfl

/-- Witness for C10: a body with no description, a non-whitelisted domain, the
literal escape type and non-URL strings is still accepted verbatim. -/
theorem acceptor_enforces_no_validator_rules_witness :
    POST (some badBody) "id0" "now0" = ApiResponse.json201
      { id := "id0"
        name := "x"
        description := none
        local_url := "u"
        public_url := "v"
        domain := some "x.com"
        type := "other"
        token := "t"
        createdAt := "now0" } :=
  acceptor_enforces_no_validator_rules badBody "id0" "now0" "x" "u" "v" "other" "t"
    rfl (by decide) rfl (by decide) rfl (by decide) rfl (by decide) rfl (by decide)

/-- Counterexample for C1: the payload's type is the raw, untrimmed customType
(here " db ", not the trimmed "db"); moreover, when the user supplies the
literal string "other" as custom type, the payload's type IS the literal
"other". Both inputs validate successfully. -/
theorem resolved_type_cex :
    ((validate cexTrim "tk1").toOption.map (fun p => p.type) = some " db " ∧
      jsTrim " db " = "db" ∧ (" db " : String) ≠ "db") ∧
    (validate cexOtherLiteral "tk2").toOption.map (fun p => p.type) = some "other" := by
  decide

/-- Claim C1 (amended): for every successfully validated description the
payload's type equals serviceType itself for the three fixed enum values, and
equals the raw (untrimmed) customType value when serviceType is the escape
value; it can therefore be the literal string "other". -/
theorem resolved_type_is_raw_custom (d : ServiceFormValues) (tok : String)
    (p : ServiceRegistrationApiPayload) (h : validate d tok = Except.ok p) :
    (∀ t, (t = "website" ∨ t = "api" ∨ t = "game") → d.type = some t →
      p.type = t) ∧
    (∀ c, d.type = some "other" → d.customType = some c → p.type = c) := by
  obtain ⟨-, hp⟩ := (validate_eq_ok_iff d tok p).mp h
  subst hp
  constructor
  · rintro t (rfl | rfl | rfl) ht <;> simp [apiPayload, finalServiceType, ht]
  · intro c ho hc
    simp [apiPayload, finalServiceType, ho, hc]

/-- Witness for C1 (amended), at a fixed three-value input and at a fixed
escape-value input. -/
theorem resolved_type_is_raw_custom_witness :
    (apiPayload goodBase "tk").type = "website" ∧
    (apiPayload dOtherGood "tk").type = "db" := by
  constructor
  · exact (resolved_type_is_raw_custom goodBase "tk" (apiPayload goodBase "tk")
      ((validate_eq_ok_iff goodBase "tk" _).mpr ⟨by decide, rfl⟩)).1 "website"
      (Or.inl rfl) rfl
  · exact (resolved_type_is_raw_custom dOtherGood "tk" (apiPayload dOtherGood "tk")
      ((validate_eq_ok_iff dOtherGood "tk" _).mpr ⟨by decide, rfl⟩)).2 "db" rfl rfl

/-- Claim C3: a non-empty domain of the shape label(.label)* followed by one of
the five whitelisted suffixes passes the domain check; a domain ending in a dot
followed by any other (dot-free) final part is rejected with a domain-format
error and validation fails. -/
theorem domain_suffix_whitelist :
    (∀ (d : ServiceFormValues) (labels : List (List Char)) (suf : List Char),
      labels ≠ [] → (∀ l ∈ labels, okLabel l = true) → isPandaSuffix suf = true →
      d.domain = some (String.mk (joinDots (labels ++ [suf]))) →
      FieldTag.domain ∉ (serviceSchemaIssues d).map Issue.path) ∧
    (∀ (d : ServiceFormValues) (tok : String) (base suf : List Char),
      '.' ∉ suf → isPandaSuffix suf = false →
      d.domain = some (String.mk (base ++ '.' :: suf)) →
      FieldTag.domain ∈ (serviceSchemaIssues d).map Issue.path ∧
      validate d tok = Except.error (serviceSchemaIssues d)) := by
  constructor
  · intro d labels suf hne hlab hsuf hdom
    have hok : domainRefineOk d.domain = true := by
      rw [hdom, domainRefineOk_some]
      by_cases hcase : String.mk (joinDots (labels ++ [suf])) = "" ∨
          jsTrim (String.mk (joinDots (labels ++ [suf]))) = ""
      · rw [if_pos hcase]
      · rw [if_neg hcase]
        unfold domainRegexTest
        have hdots : ∀ p ∈ labels ++ [suf], '.' ∉ p := by
          intro p hp
          rcases List.mem_append.mp hp with h | h
          · exact okLabel_no_dot (hlab p h)
          · rw [List.mem_singleton.mp h]
            exact isPandaSuffix_no_dot hsuf
        have hd : (String.mk (joinDots (labels ++ [suf]))).data =
            joinDots (labels ++ [suf]) := rfl
        rw [hd, splitOnDot_joinDots _ (by simp) hdots]
        exact partsMatch_concat labels suf hne hlab hsuf
    exact domain_not_mem_of_ok d hok
  · intro d tok base suf hdotfree hsuf hdom
    have hOkFalse : domainRefineOk d.domain = false := by
      rw [hdom, domainRefineOk_some]
      rw [if_neg]
      · unfold domainRegexTest
        exact partsMatch_eq_false _ suf
          (getLast?_splitOnDot_suffix base suf hdotfree) hsuf
      · rintro (hemp | htr)
        · have : (String.mk (base ++ '.' :: suf)).data = ([] : List Char) :=
            congrArg String.data hemp
          simp at this
        · have hmemdot : ('.' : Char) ∈ base ++ '.' :: suf := by simp
          exact trimChars_ne_nil hmemdot (by decide)
            ((jsTrim_eq_empty_iff _).mp htr)
    have hmem : FieldTag.domain ∈ (serviceSchemaIssues d).map Issue.path := by
      rw [mem_path_schemaIssues]
      exact Or.inr (Or.inr (Or.inr (Or.inl ⟨hOkFalse, rfl⟩)))
    refine ⟨hmem, validate_eq_error d tok ?_⟩
    intro hnil
    rw [hnil] at hmem
    simp at hmem

/-- Witness for C3: a whitelisted concrete domain passes, a .com domain is
flagged. -/
theorem domain_suffix_whitelist_witness :
    FieldTag.domain ∉ (serviceSchemaIssues dDomainGood).map Issue.path ∧
    FieldTag.domain ∈ (serviceSchemaIssues dDomainBad).map Issue.path :=
  ⟨domain_suffix_whitelist.1 dDomainGood ["myapp".data] "panda".data
      (by decide) (by decide) (by decide) (by decide),
    (domain_suffix_whitelist.2 dDomainBad "tk" "myapp".data "com".data
      (by decide) (by decide) (by decide)).1⟩

/-- Claim C4: when the escape type is selected and customType is absent or has
trimmed length below 2, validation fails with an issue citing customType; when
one of the three fixed types is selected, no customType issue is ever emitted,
whatever customType holds. -/
theorem custom_type_conditional_rule (d : ServiceFormValues) (tok : String) :
    (d.type = some "other" →
      (d.customType = none ∨
        ∃ c, d.customType = some c ∧ (jsTrim c).length < 2) →
      validate d tok = Except.error (serviceSchemaIssues d) ∧
      FieldTag.customType ∈ (serviceSchemaIssues d).map Issue.path) ∧
    (∀ t, (t = "website" ∨ t = "api" ∨ t = "game") → d.type = some t →
      FieldTag.customType ∉ (serviceSchemaIssues d).map Issue.path) := by
  constructor
  · intro ho hshort
    have hct : customTypeTooShort d.customType = true := by
      rcases hshort with h | ⟨c, hc, hlen⟩
      · rw [h]
        rfl
      · rw [hc]
        unfold customTypeTooShort
        simp [hlen]
    have hmem : FieldTag.customType ∈ (serviceSchemaIssues d).map Issue.path := by
      rw [mem_path_schemaIssues]
      refine Or.inr (Or.inr (Or.inr (Or.inr (Or.inr (Or.inr ⟨?_, ho, hct, rfl⟩)))))
      rw [ho]
      rfl
    refine ⟨validate_eq_error d tok ?_, hmem⟩
    intro hnil
    rw [hnil] at hmem
    simp at hmem
  · rintro t (rfl | rfl | rfl) ht hmem <;>
      (rw [mem_path_schemaIssues] at hmem; simp [ht] at hmem)

/-- Witness for C4: the escape type with an empty customType is flagged on the
customType field; the fixed type website never is. -/
theorem custom_type_conditional_rule_witness :
    FieldTag.customType ∈ (serviceSchemaIssues dOtherEmpty).map Issue.path ∧
    FieldTag.customType ∉ (serviceSchemaIssues goodBase).map Issue.path :=
  ⟨((custom_type_conditional_rule dOtherEmpty "tk").1 (by decide)
      (Or.inr ⟨"", by decide, by decide⟩)).2,
    (custom_type_conditional_rule goodBase "tk").2 "website" (Or.inl rfl)
      (by decide)⟩

/-- Counterexample for C5: a whitespace-only domain (a single space) skips the
format check and validation succeeds, but the payload still carries the
whitespace domain instead of dropping the field. -/
theorem whitespace_domain_cex :
    FieldTag.domain ∉ (serviceSchemaIssues dWhitespaceDomain).map Issue.path ∧
    (validate dWhitespaceDomain "tk").toOption.map (fun p => p.domain) =
      some (some " ") := by
  decide

/-- Claim C5 (amended): an absent, empty or whitespace-only domain skips the
domain-format check; the payload's domain is normalized to absent when the
input domain is absent or the empty string, but a non-empty whitespace-only
domain is passed through verbatim into the payload. -/
theorem empty_domain_treated_absent (d : ServiceFormValues) (tok : String)
    (p : ServiceRegistrationApiPayload) :
    (∀ v, d.domain = some v → jsTrim v = "" →
      FieldTag.domain ∉ (serviceSchemaIssues d).map Issue.path) ∧
    (d.domain = none → FieldTag.domain ∉ (serviceSchemaIssues d).map Issue.path ∧
      (validate d tok = Except.ok p → p.domain = none)) ∧
    (d.domain = some "" → validate d tok = Except.ok p → p.domain = none) ∧
    (∀ v, d.domain = some v → v ≠ "" → validate d tok = Except.ok p →
      p.domain = some v) := by
  refine ⟨?_, ?_, ?_, ?_⟩
  · intro v hv htrim
    refine domain_not_mem_of_ok d ?_
    rw [hv, domainRefineOk_some, if_pos (Or.inr htrim)]
  · intro hnone
    constructor
    · refine domain_not_mem_of_ok d ?_
      rw [hnone]
      rfl
    · intro h
      obtain ⟨-, hp⟩ := (validate_eq_ok_iff d tok p).mp h
      subst hp
      show emptyToUndefined (emptyToUndefined d.domain) = none
      rw [hnone]
      rfl
  · intro hv h
    obtain ⟨-, hp⟩ := (validate_eq_ok_iff d tok p).mp h
    subst hp
    show emptyToUndefined (emptyToUndefined d.domain) = none
    rw [hv]
    rfl
  · intro v hv hne h
    obtain ⟨-, hp⟩ := (validate_eq_ok_iff d tok p).mp h
    subst hp
    show emptyToUndefined (emptyToUndefined d.domain) = some v
    rw [hv, emptyToUndefined_some_ne v hne, emptyToUndefined_some_ne v hne]

/-- Witness for C5 (amended): the empty domain is dropped from the payload,
the single-space domain skips the check yet is kept verbatim. -/
theorem empty_domain_treated_absent_witness :
    (apiPayload dEmptyDomain "tk").domain = none ∧
    FieldTag.domain ∉ (serviceSchemaIssues dWhitespaceDomain).map Issue.path ∧
    (apiPayload dWhitespaceDomain "tk").domain = some " " := by
  refine ⟨?_, ?_, ?_⟩
  · exact (empty_domain_treated_absent dEmptyDomain "tk"
      (apiPayload dEmptyDomain "tk")).2.2.1 rfl
      ((validate_eq_ok_iff dEmptyDomain "tk" _).mpr ⟨by decide, rfl⟩)
  · exact (empty_domain_treated_absent dWhitespaceDomain "tk"
      (apiPayload dWhitespaceDomain "tk")).1 " " rfl (by decide)
  · exact (empty_domain_treated_absent dWhitespaceDomain "tk"
      (apiPayload dWhitespaceDomain "tk")).2.2.2 " " rfl (by decide)
      ((validate_eq_ok_iff dWhitespaceDomain "tk" _).mpr ⟨by decide, rfl⟩)

/-- Claim C6: a too-short name makes validation fail with a name issue, and the
presence or absence of every other field's issue is unchanged by the name (so
the name error masks no other field's error; all are reported together). -/
theorem errors_collected_no_masking (d : ServiceFormValues) (tok : String)
    (h : d.name.length < 3) :
    validate d tok = Except.error (serviceSchemaIssues d) ∧
    FieldTag.name ∈ (serviceSchemaIssues d).map Issue.path ∧
    (∀ (nm : String) (t : FieldTag), t ≠ FieldTag.name →
      (t ∈ (serviceSchemaIssues { d with name := nm }).map Issue.path ↔
        t ∈ (serviceSchemaIssues d).map Issue.path)) := by
  have hmem : FieldTag.name ∈ (serviceSchemaIssues d).map Issue.path := by
    rw [mem_path_schemaIssues]
    exact Or.inl ⟨h, rfl⟩
  refine ⟨validate_eq_error d tok ?_, hmem, ?_⟩
  · intro hnil
    rw [hnil] at hmem
    simp at hmem
  · intro nm t ht
    rw [mem_path_schemaIssues, mem_path_schemaIssues]
    simp [ht]

/-- Witness for C6: the short name "ab" is flagged, and the domain issue's
absence is unaffected by fixing the name. -/
theorem errors_collected_no_masking_witness :
    FieldTag.name ∈ (serviceSchemaIssues dShortName).map Issue.path ∧
    (FieldTag.domain ∈
        (serviceSchemaIssues { dShortName with name := "My App" }).map Issue.path ↔
      FieldTag.domain ∈ (serviceSchemaIssues dShortName).map Issue.path) := by
  have hh := errors_collected_no_masking dShortName "tk" (by decide)
  exact ⟨hh.2.1, hh.2.2 "My App" FieldTag.domain (by decide)⟩

/-- Claim C8: two successful validations of the same input with distinct fresh
tokens produce payloads identical in every field except the token, and the two
token fields differ (each call's freshly generated token is attached). -/
theorem validate_shape_token_fresh (d : ServiceFormValues) (t1 t2 : String)
    (p1 p2 : ServiceRegistrationApiPayload) (hfresh : t1 ≠ t2)
    (h1 : validate d t1 = Except.ok p1) (h2 : validate d t2 = Except.ok p2) :
    p1.token ≠ p2.token ∧ p1.token = t1 ∧ p2.token = t2 ∧
    p1.name = p2.name ∧ p1.description = p2.description ∧
    p1.local_url = p2.local_url ∧ p1.public_url = p2.public_url ∧
    p1.domain = p2.domain ∧ p1.type = p2.type := by
  obtain ⟨-, hp1⟩ := (validate_eq_ok_iff d t1 p1).mp h1
  obtain ⟨-, hp2⟩ := (validate_eq_ok_iff d t2 p2).mp h2
  subst hp1
  subst hp2
  exact ⟨hfresh, rfl, rfl, rfl, rfl, rfl, rfl, rfl, rfl⟩

/-- Witness for C8: two concrete validations of the same good input with
distinct tokens. -/
theorem validate_shape_token_fresh_witness :
    (apiPayload goodBase "t1").token ≠ (apiPayload goodBase "t2").token ∧
    (apiPayload goodBase "t1").type = (apiPayload goodBase "t2").type := by
  have hh := validate_shape_token_fresh goodBase "t1" "t2"
    (apiPayload goodBase "t1") (apiPayload goodBase "t2") (by decide)
    ((validate_eq_ok_iff goodBase "t1" _).mpr ⟨by decide, rfl⟩)
    ((validate_eq_ok_iff goodBase "t2" _).mpr ⟨by decide, rfl⟩)
  exact ⟨hh.1, hh.2.2.2.2.2.2.2.2⟩
